import Mathlib

/-!
# Navigation tree resolver: model and verification

The repository is a Starlight/Astro documentation site.  Its own source
consists of declarative sidebar configurations (several historical variants
of `astro.config.mjs`) plus content files; the navigation-tree *resolver*
that consumes those configurations lives in the external site generator and
is described by the repository's specification.  Following the
specification's data model (`NavEntry`, `ResolvedNavEntry`, the content
manifest, the four configuration errors) we model the resolver here and
verify the stated properties, and we embed the concrete sidebar
configurations found in the repository to check the claims about them.
-/

/-- Modelled from the spec: one entry of the content manifest, a content
file with its slug and the title metadata carried by the manifest
(`mapping<directory-path, ordered sequence of {slug, title}>`). -/
structure ManifestEntry where
  slug : String
  title : String
deriving Repr, DecidableEq

/-- Modelled from the spec: the content manifest, an ordered mapping from
directory path to the ordered list of content-file entries it contains. -/
abbrev ContentManifest := List (String × List ManifestEntry)

/-- Look a directory up in the content manifest (first matching key). -/
def lookupDir (manifest : ContentManifest) (d : String) : Option (List ManifestEntry) :=
  (manifest.find? (fun p => p.1 == d)).map (fun p => p.2)

/-- All slugs listed anywhere in the manifest, across every directory
(the aggregate membership domain used to validate explicit slugs). -/
def manifestSlugs (manifest : ContentManifest) : List String :=
  (manifest.map (fun p => p.2.map (fun en => en.slug))).flatten

/-- Modelled from the spec: a raw (declarative) navigation node as written
in the configuration.  The source expresses the target as optional fields
with an implicit one-of convention — a node has either a `slug`, an
`autogenerate` block (its directory), or an `items` list — so the raw shape
keeps all three optional and resolution validates the one-of rule. -/
inductive RawNavEntry : Type where
  | mk (label : String) (translations : List (String × String))
       (slug : Option String) (autogenerate : Option String)
       (items : Option (List RawNavEntry)) (icon : Option String)

/-- Modelled from the spec: a fully resolved navigation node,
`ResolvedNavEntry { displayLabel, href, children }`; group nodes carry no
href of their own. -/
inductive ResolvedNavEntry : Type where
  | mk (displayLabel : String) (href : Option String)
       (children : List ResolvedNavEntry)

def ResolvedNavEntry.displayLabel : ResolvedNavEntry → String
  | .mk l _ _ => l

def ResolvedNavEntry.href : ResolvedNavEntry → Option String
  | .mk _ h _ => h

def ResolvedNavEntry.children : ResolvedNavEntry → List ResolvedNavEntry
  | .mk _ _ c => c

/-- Modelled from the spec: the error taxonomy of the resolver
(`MalformedNodeError`, `MissingDirectoryError`, `DanglingSlugError`,
`InvalidLocaleError`), each carrying the datum it diagnoses. -/
inductive NavError : Type where
  | malformedNode (label : String)
  | missingDirectory (dir : String)
  | danglingSlug (slug : String)
  | invalidLocale (key : String)
deriving Repr, DecidableEq

/-- Look a locale key up in a translations mapping. -/
def lookupStr (xs : List (String × String)) (k : String) : Option String :=
  (xs.find? (fun p => p.1 == k)).map (fun p => p.2)

/-- Modelled from the spec: the uniform label-fallback rule,
`displayLabel = translations[locale] if locale in translations else label`. -/
def resolveLabel (label : String) (translations : List (String × String))
    (locale : String) : String :=
  match lookupStr translations locale with
  | some t => t
  | none => label

/-- Every locale key used in a translations mapping belongs to the declared
set of supported locales. -/
def translationsOk (locales : List String) (translations : List (String × String)) : Bool :=
  translations.all (fun p => locales.contains p.1)

/-- The first locale key of a translations mapping that is not a declared
locale (the key an `InvalidLocaleError` diagnoses). -/
def firstBadKey (locales : List String) : List (String × String) → String
  | [] => ""
  | p :: ps => if locales.contains p.1 then firstBadKey locales ps else p.1

mutual

/-- Modelled from the spec: resolve one raw node, for one requested locale,
into the ordered sequence of resolved nodes that replaces it.  An explicit
slug yields one leaf (after the aggregate membership check); an
autogenerate directive is replaced by one leaf per manifest entry of its
directory, in manifest order, labelled by each file's own title; a group
recurses into its children in order; a node populating more than one of the
three variants, or none, is malformed.  Failures: `MalformedNodeError`
(shape checked first, before any traversal of the node), then
`InvalidLocaleError`, then the membership checks. -/
def resolveNode (locales : List String) (manifest : ContentManifest) (locale : String) :
    RawNavEntry → Except NavError (List ResolvedNavEntry)
  | .mk label translations (some s) none none _ =>
      if translationsOk locales translations then
        if (manifestSlugs manifest).contains s then
          .ok [.mk (resolveLabel label translations locale) (some s) []]
        else
          .error (.danglingSlug s)
      else
        .error (.invalidLocale (firstBadKey locales translations))
  | .mk _ translations none (some d) none _ =>
      if translationsOk locales translations then
        match lookupDir manifest d with
        | some entries =>
            .ok (entries.map (fun en => ResolvedNavEntry.mk en.title (some en.slug) []))
        | none => .error (.missingDirectory d)
      else
        .error (.invalidLocale (firstBadKey locales translations))
  | .mk label translations none none (some children) _ =>
      if translationsOk locales translations then
        match resolveList locales manifest locale children with
        | .ok rc => .ok [.mk (resolveLabel label translations locale) none rc]
        | .error e => .error e
      else
        .error (.invalidLocale (firstBadKey locales translations))
  | .mk label _ _ _ _ _ => .error (.malformedNode label)

/-- Resolve an ordered sequence of sibling raw nodes, concatenating the
replacement sequences positionally (no reordering, no deduplication). -/
def resolveList (locales : List String) (manifest : ContentManifest) (locale : String) :
    List RawNavEntry → Except NavError (List ResolvedNavEntry)
  | [] => .ok []
  | e :: es =>
      match resolveNode locales manifest locale e with
      | .ok r =>
          match resolveList locales manifest locale es with
          | .ok rs => .ok (r ++ rs)
          | .error err => .error err
      | .error err => .error err

end

/-- Modelled from the spec: resolve a whole declarative sidebar tree for a
single requested locale. -/
def resolveTree (locales : List String) (manifest : ContentManifest) (locale : String)
    (tree : List RawNavEntry) : Except NavError (List ResolvedNavEntry) :=
  resolveList locales manifest locale tree

/-- Resolve the tree once per requested locale, pairing each locale with
its resolved tree; any configuration error aborts the whole run. -/
def resolveLocales (tree : List RawNavEntry) (locales : List String)
    (manifest : ContentManifest) :
    List String → Except NavError (List (String × List ResolvedNavEntry))
  | [] => .ok []
  | L :: Ls =>
      match resolveTree locales manifest L tree with
      | .ok r =>
          match resolveLocales tree locales manifest Ls with
          | .ok rest => .ok ((L, r) :: rest)
          | .error err => .error err
      | .error err => .error err

set_option linter.unusedVariables false in
/-- Modelled from the spec: the full operation
`resolve(tree, locales, defaultLocale, contentManifest)`, producing one
resolved tree per supported locale (the default locale is required to be a
member of `locales`; label fallback itself goes to the node's `label`, so
the default locale plays no further computational role). -/
def resolve (tree : List RawNavEntry) (locales : List String) (defaultLocale : String)
    (manifest : ContentManifest) : Except NavError (List (String × List ResolvedNavEntry)) :=
  resolveLocales tree locales manifest locales

mutual

/-- All locale keys used by translations mappings in a node (and, below a
group-shaped node, in its descendants). -/
def transKeysNode : RawNavEntry → List String
  | .mk _ translations none none (some children) _ =>
      translations.map (fun p => p.1) ++ transKeysList children
  | .mk _ translations _ _ _ _ => translations.map (fun p => p.1)

/-- All locale keys used by translations mappings in a sibling sequence. -/
def transKeysList : List RawNavEntry → List String
  | [] => []
  | e :: es => transKeysNode e ++ transKeysList es

end

mutual

/-- All explicit slugs of a node and its (group) descendants. -/
def explicitSlugsNode : RawNavEntry → List String
  | .mk _ _ (some s) none none _ => [s]
  | .mk _ _ none none (some children) _ => explicitSlugsList children
  | .mk _ _ _ _ _ _ => []

/-- All explicit slugs of a sibling sequence. -/
def explicitSlugsList : List RawNavEntry → List String
  | [] => []
  | e :: es => explicitSlugsNode e ++ explicitSlugsList es

end

mutual

/-- All autogenerate directories of a node and its (group) descendants. -/
def autogenDirsNode : RawNavEntry → List String
  | .mk _ _ none (some d) none _ => [d]
  | .mk _ _ none none (some children) _ => autogenDirsList children
  | .mk _ _ _ _ _ _ => []

/-- All autogenerate directories of a sibling sequence. -/
def autogenDirsList : List RawNavEntry → List String
  | [] => []
  | e :: es => autogenDirsNode e ++ autogenDirsList es

end

mutual

/-- Whether a node, or any of its (group) descendants, violates the one-of
shape rule (more than one of the three target variants populated, or
none). -/
def anyBadShapeNode : RawNavEntry → Bool
  | .mk _ _ (some _) none none _ => false
  | .mk _ _ none (some _) none _ => false
  | .mk _ _ none none (some children) _ => anyBadShapeList children
  | .mk _ _ _ _ _ _ => true

/-- Whether any node of a sibling sequence violates the one-of shape rule. -/
def anyBadShapeList : List RawNavEntry → Bool
  | [] => false
  | e :: es => anyBadShapeNode e || anyBadShapeList es

end

mutual

/-- The expected resolved form of an autogenerate-free, well-shaped node:
one resolved node per raw node, positionally, with the label-fallback rule
applied and group children mapped recursively. -/
def plainNode (locale : String) : RawNavEntry → List ResolvedNavEntry
  | .mk label translations (some s) none none _ =>
      [.mk (resolveLabel label translations locale) (some s) []]
  | .mk label translations none none (some children) _ =>
      [.mk (resolveLabel label translations locale) none (plainList locale children)]
  | .mk _ _ _ _ _ _ => []

/-- The expected resolved form of an autogenerate-free sibling sequence. -/
def plainList (locale : String) : List RawNavEntry → List ResolvedNavEntry
  | [] => []
  | e :: es => plainNode locale e ++ plainList locale es

end

/-- Whether an error is the invalid-locale diagnosis. -/
def NavError.isInvalidLocale : NavError → Bool
  | .invalidLocale _ => true
  | _ => false

/-- Whether a resolution result is an `InvalidLocaleError`. -/
def resultInvalidLocale : Except NavError (List ResolvedNavEntry) → Bool
  | .error e => e.isInvalidLocale
  | .ok _ => false

/-- The set of supported locales declared by every configuration variant in
the repository: the root (English) locale and French. -/
def repoLocales : List String := ["root", "fr"]

/-- The default locale declared by every configuration variant in the
repository. -/
def repoDefaultLocale : String := "root"

/-- The sidebar of `astro.config.mjs`: two groups mixing explicit slugs and
autogenerate directives, plus a leaf and a directive at top level. -/
def sidebarA : List RawNavEntry := [
  .mk "Getting Starred" [("fr", "Pour Commencer")] (some "getting-started") none none none,
  .mk "Principes" [("fr", "Principes")] none (some "principles") none none,
  .mk "Design Patterns" [("fr", "Design Patterns")] none none (some [
    .mk "" [] (some "design-patterns") none none none,
    .mk "Creational Patterns" [("fr", "Creational Patterns")] none
      (some "design-patterns/creational") none none,
    .mk "Structural Patterns" [("fr", "Structural Patterns")] none
      (some "design-patterns/structural") none none,
    .mk "Behavioral Patterns" [("fr", "Behavioral Patterns")] none
      (some "design-patterns/behavioral") none none]) none,
  .mk "Useful libraries" [("fr", "Librairies Utiles")] none none (some [
    .mk "" [] (some "useful-libraries") none none none,
    .mk "JavaScript / TypeScript" [] none
      (some "useful-libraries/javascript-typescript") none none]) none]

/-- The sidebar of the configuration variant that flattened the pattern
groups into autogenerate directives (part_006). -/
def sidebarB : List RawNavEntry := [
  .mk "Getting Starred" [("fr", "Pour Commencer")] (some "getting-started") none none none,
  .mk "How to Contribute" [("fr", "Comment contribuer")] (some "contribute") none none none,
  .mk "Principes" [("fr", "Principes")] none (some "principles") none none,
  .mk "Design Patterns" [("fr", "Design Patterns")] none (some "design-patterns") none none,
  .mk "Useful libraries" [("fr", "Librairies Utiles")] none (some "useful-libraries") none none]

/-- The items of the Guides topic shared by the topics-based configuration
variants (part_007 and part_008). -/
def guidesItems : List RawNavEntry := [
  .mk "Getting Starred" [("fr", "Pour Commencer")] (some "guides") none none none,
  .mk "How to Contribute" [("fr", "Comment contribuer")] (some "guides/contribute") none none none,
  .mk "Principes" [("fr", "Principes")] none (some "guides/principles") none none,
  .mk "Design Patterns" [("fr", "Design Patterns")] none (some "guides/design-patterns") none none,
  .mk "Useful libraries" [("fr", "Librairies Utiles")] none (some "guides/useful-libraries") none none]

/-- The three sidebar topics of the topics-based variant (part_007), each
topic embedded as a group node over its item list. -/
def sidebarC : List RawNavEntry := [
  .mk "Guides" [] none none (some guidesItems) (some "open-book"),
  .mk "Courses" [] none none (some [
    .mk "Getting Starred" [("fr", "Pour Commencer")] (some "courses") none none none])
    (some "seti:notebook"),
  .mk "Exercices" [] none none (some [
    .mk "Getting Starred" [("fr", "Pour Commencer")] (some "exercices") none none none])
    (some "pencil")]

/-- The two sidebar topics of the earlier topics-based variant (part_008). -/
def sidebarD : List RawNavEntry := [
  .mk "Guides" [] none none (some guidesItems) (some "open-book"),
  .mk "Exercices" [] none none (some [
    .mk "Getting Starred" [("fr", "Pour Commencer")] (some "exercices") none none none])
    (some "pencil")]

/-- The fully explicit sidebar of the earliest configuration variant
(part_009), with nested groups and per-page labels. -/
def sidebarE : List RawNavEntry := [
  .mk "Home" [("fr", "Accueil")] (some "") none none none,
  .mk "Principes" [("fr", "Principes")] none none (some [
    .mk "Development Principles" [("fr", "Principes de Développement")]
      (some "principles") none none none,
    .mk "KISS, Keep it simple, stupid!" [] (some "principles/kiss") none none none,
    .mk "SOLID, 5 Principles OOP" [("fr", "SOLID, 5 Principes POO")]
      (some "principles/solid") none none none,
    .mk "DRY, Don\x27t Repeat Yourself" [] (some "principles/dry") none none none,
    .mk "Law of Demeter" [("fr", "Loi de Déméter")] (some "principles/demeter") none none none])
    none,
  .mk "Design Patterns" [("fr", "Design Patterns")] none none (some [
    .mk "Design Patterns Overview" [("fr", "Aperçu des Design Patterns")]
      (some "design-patterns") none none none,
    .mk "Creational Patterns" [] none none (some [
      .mk "Creational Patterns Overview" [("fr", "Apperçu des Creational Patterns")]
        (some "design-patterns/creational") none none none,
      .mk "Singleton" [] (some "design-patterns/creational/singleton") none none none]) none])
    none]

theorem translationsOk_cons (locales : List String) (p : String × String)
    (ps : List (String × String)) :
    translationsOk locales (p :: ps) =
      (locales.contains p.1 && translationsOk locales ps) := by
  simp only [translationsOk, List.all_cons]

theorem firstBadKey_eq (locales : List String) (translations : List (String × String))
    (k : String) (hk : k ∈ translations.map (fun p => p.1))
    (hbad : locales.contains k = false)
    (hothers : ∀ k' ∈ translations.map (fun p => p.1), k' ≠ k →
      locales.contains k' = true) :
    translationsOk locales translations = false ∧
      firstBadKey locales translations = k := by
  induction translations with
  | nil => simp at hk
  | cons p ps ih =>
      by_cases hp : locales.contains p.1 = true
      · have hpk : p.1 ≠ k := fun h => by rw [h] at hp; rw [hp] at hbad; cases hbad
        have hk' : k ∈ ps.map (fun q => q.1) := by
          rcases (by simpa using hk : k = p.1 ∨ k ∈ ps.map (fun q => q.1)) with h1 | h2
          · exact absurd h1.symm hpk
          · exact h2
        have hothers' : ∀ k' ∈ ps.map (fun q => q.1), k' ≠ k →
            locales.contains k' = true := by
          intro k' hk'' hne
          exact hothers k' (by simp [hk'']) hne
        obtain ⟨h1, h2⟩ := ih hk' hothers'
        refine ⟨?_, ?_⟩
        · rw [translationsOk_cons, hp, h1]
          rfl
        · rw [firstBadKey, if_pos hp]
          exact h2
      · have hp' : locales.contains p.1 = false := by
          revert hp; cases locales.contains p.1 <;> simp
        have hpk : p.1 = k := by
          by_contra hne
          have := hothers p.1 (by simp) hne
          rw [this] at hp'; cases hp'
        refine ⟨?_, ?_⟩
        · rw [translationsOk_cons, hp']
          rfl
        · rw [firstBadKey, if_neg hp, hpk]


theorem translationsOk_of_mem_keys (locales : List String)
    (translations : List (String × String))
    (h : ∀ k ∈ translations.map (fun p => p.1), k ∈ locales) :
    translationsOk locales translations = true := by
  simp only [translationsOk, List.all_eq_true]
  intro p hp
  simpa using h p.1 (List.mem_map_of_mem _ hp)

mutual

theorem resolveNode_ok (locales : List String) (manifest : ContentManifest)
    (locale : String) :
    ∀ e : RawNavEntry, anyBadShapeNode e = false →
      (∀ k ∈ transKeysNode e, k ∈ locales) →
      (∀ s ∈ explicitSlugsNode e, s ∈ manifestSlugs manifest) →
      (∀ d ∈ autogenDirsNode e, (lookupDir manifest d).isSome = true) →
      ∃ r, resolveNode locales manifest locale e = .ok r
  | .mk label translations (some s) none none icon => by
      intro hsh hk hs hd
      have htr : translationsOk locales translations = true :=
        translationsOk_of_mem_keys _ _ hk
      have hcs : s ∈ manifestSlugs manifest := hs s (List.mem_singleton.mpr rfl)
      exact ⟨[.mk (resolveLabel label translations locale) (some s) []],
        by simp [resolveNode, htr, hcs]⟩
  | .mk label translations none (some d) none icon => by
      intro hsh hk hs hd
      have htr : translationsOk locales translations = true :=
        translationsOk_of_mem_keys _ _ hk
      have hds : (lookupDir manifest d).isSome = true :=
        hd d (List.mem_singleton.mpr rfl)
      obtain ⟨entries, hent⟩ := Option.isSome_iff_exists.mp hds
      exact ⟨entries.map (fun en => ResolvedNavEntry.mk en.title (some en.slug) []),
        by simp [resolveNode, htr, hent]⟩
  | .mk label translations none none (some children) icon => by
      intro hsh hk hs hd
      have htr : translationsOk locales translations = true :=
        translationsOk_of_mem_keys _ _ (fun k hkk => hk k (List.mem_append_left _ hkk))
      obtain ⟨rc, hrc⟩ := resolveList_ok locales manifest locale children hsh
        (fun k hkk => hk k (List.mem_append_right _ hkk))
        (fun s hss => hs s hss)
        (fun d hdd => hd d hdd)
      exact ⟨[.mk (resolveLabel label translations locale) none rc],
        by simp [resolveNode, htr, hrc]⟩
  | .mk label translations (some s) (some d) items icon => by
      intro hsh hk hs hd
      simp [anyBadShapeNode] at hsh
  | .mk label translations (some s) none (some children) icon => by
      intro hsh hk hs hd
      simp [anyBadShapeNode] at hsh
  | .mk label translations none (some d) (some children) icon => by
      intro hsh hk hs hd
      simp [anyBadShapeNode] at hsh
  | .mk label translations none none none icon => by
      intro hsh hk hs hd
      simp [anyBadShapeNode] at hsh

theorem resolveList_ok (locales : List String) (manifest : ContentManifest)
    (locale : String) :
    ∀ es : List RawNavEntry, anyBadShapeList es = false →
      (∀ k ∈ transKeysList es, k ∈ locales) →
      (∀ s ∈ explicitSlugsList es, s ∈ manifestSlugs manifest) →
      (∀ d ∈ autogenDirsList es, (lookupDir manifest d).isSome = true) →
      ∃ r, resolveList locales manifest locale es = .ok r
  | [] => by
      intro _ _ _ _
      exact ⟨[], by simp [resolveList]⟩
  | e :: es => by
      intro hsh hk hs hd
      have hsh' : anyBadShapeNode e = false ∧ anyBadShapeList es = false := by
        simpa [anyBadShapeList, Bool.or_eq_false_iff] using hsh
      obtain ⟨r, hr⟩ := resolveNode_ok locales manifest locale e hsh'.1
        (fun k hkk => hk k (List.mem_append_left _ hkk))
        (fun s hss => hs s (List.mem_append_left _ hss))
        (fun d hdd => hd d (List.mem_append_left _ hdd))
      obtain ⟨rs, hrs⟩ := resolveList_ok locales manifest locale es hsh'.2
        (fun k hkk => hk k (List.mem_append_right _ hkk))
        (fun s hss => hs s (List.mem_append_right _ hss))
        (fun d hdd => hd d (List.mem_append_right _ hdd))
      exact ⟨r ++ rs, by simp [resolveList, hr, hrs]⟩

end

mutual

theorem slugs_of_resolveNode_ok (locales : List String) (manifest : ContentManifest)
    (locale : String) :
    ∀ (e : RawNavEntry) (r : List ResolvedNavEntry),
      resolveNode locales manifest locale e = .ok r →
      ∀ s ∈ explicitSlugsNode e, s ∈ manifestSlugs manifest
  | .mk label translations (some s) none none icon => by
      intro r h s' hs'
      have hss : s' = s := by simpa [explicitSlugsNode] using hs'
      subst hss
      simp only [resolveNode] at h
      by_cases htr : translationsOk locales translations = true
      · rw [if_pos htr] at h
        by_cases hc : (manifestSlugs manifest).contains s' = true
        · simpa using hc
        · rw [if_neg hc] at h; simp at h
      · rw [if_neg htr] at h; simp at h
  | .mk label translations none (some d) none icon => by
      intro r h s' hs'
      simp [explicitSlugsNode] at hs'
  | .mk label translations none none (some children) icon => by
      intro r h s' hs'
      simp only [resolveNode] at h
      split at h
      · split at h
        next rc hrc =>
          exact slugs_of_resolveList_ok locales manifest locale children rc hrc s' hs'
        next err herr => simp at h
      · simp at h
  | .mk label translations (some s) (some d) items icon => by
      intro r h s' hs'
      simp [resolveNode] at h
  | .mk label translations (some s) none (some children) icon => by
      intro r h s' hs'
      simp [resolveNode] at h
  | .mk label translations none (some d) (some children) icon => by
      intro r h s' hs'
      simp [resolveNode] at h
  | .mk label translations none none none icon => by
      intro r h s' hs'
      simp [resolveNode] at h

theorem slugs_of_resolveList_ok (locales : List String) (manifest : ContentManifest)
    (locale : String) :
    ∀ (es : List RawNavEntry) (r : List ResolvedNavEntry),
      resolveList locales manifest locale es = .ok r →
      ∀ s ∈ explicitSlugsList es, s ∈ manifestSlugs manifest
  | [] => by
      intro r h s hs
      simp [explicitSlugsList] at hs
  | e :: es => by
      intro r h s hs
      rw [resolveList] at h
      cases hnode : resolveNode locales manifest locale e with
      | error err => rw [hnode] at h; simp at h
      | ok r1 =>
          rw [hnode] at h
          cases hlist : resolveList locales manifest locale es with
          | error err => rw [hlist] at h; simp at h
          | ok rs =>
              rcases List.mem_append.mp hs with h1 | h2
              · exact slugs_of_resolveNode_ok locales manifest locale e r1 hnode s h1
              · exact slugs_of_resolveList_ok locales manifest locale es rs hlist s h2

end

mutual

theorem resolveNode_noInvalidLocale (locales : List String) (manifest : ContentManifest)
    (locale : String) :
    ∀ e : RawNavEntry, (∀ k ∈ transKeysNode e, k ∈ locales) →
      resultInvalidLocale (resolveNode locales manifest locale e) = false
  | .mk label translations (some s) none none icon => by
      intro hk
      have htr : translationsOk locales translations = true :=
        translationsOk_of_mem_keys _ _ hk
      by_cases hc : (manifestSlugs manifest).contains s = true
      · have hc' : s ∈ manifestSlugs manifest := by simpa using hc
        simp [resolveNode, htr, hc', resultInvalidLocale]
      · have hc' : ¬s ∈ manifestSlugs manifest := by simpa using hc
        simp [resolveNode, htr, hc', resultInvalidLocale, NavError.isInvalidLocale]
  | .mk label translations none (some d) none icon => by
      intro hk
      have htr : translationsOk locales translations = true :=
        translationsOk_of_mem_keys _ _ hk
      cases hld : lookupDir manifest d with
      | some entries => simp [resolveNode, htr, hld, resultInvalidLocale]
      | none =>
          simp [resolveNode, htr, hld, resultInvalidLocale, NavError.isInvalidLocale]
  | .mk label translations none none (some children) icon => by
      intro hk
      have htr : translationsOk locales translations = true :=
        translationsOk_of_mem_keys _ _ (fun k hkk => hk k (List.mem_append_left _ hkk))
      have hrec := resolveList_noInvalidLocale locales manifest locale children
        (fun k hkk => hk k (List.mem_append_right _ hkk))
      cases hrc : resolveList locales manifest locale children with
      | ok rc => simp [resolveNode, htr, hrc, resultInvalidLocale]
      | error err =>
          rw [hrc] at hrec
          simp [resolveNode, htr, hrc, resultInvalidLocale]
          simpa [resultInvalidLocale] using hrec
  | .mk label translations (some s) (some d) items icon => by
      intro hk
      simp [resolveNode, resultInvalidLocale, NavError.isInvalidLocale]
  | .mk label translations (some s) none (some children) icon => by
      intro hk
      simp [resolveNode, resultInvalidLocale, NavError.isInvalidLocale]
  | .mk label translations none (some d) (some children) icon => by
      intro hk
      simp [resolveNode, resultInvalidLocale, NavError.isInvalidLocale]
  | .mk label translations none none none icon => by
      intro hk
      simp [resolveNode, resultInvalidLocale, NavError.isInvalidLocale]

theorem resolveList_noInvalidLocale (locales : List String) (manifest : ContentManifest)
    (locale : String) :
    ∀ es : List RawNavEntry, (∀ k ∈ transKeysList es, k ∈ locales) →
      resultInvalidLocale (resolveList locales manifest locale es) = false
  | [] => by
      intro _
      simp [resolveList, resultInvalidLocale]
  | e :: es => by
      intro hk
      have h1 := resolveNode_noInvalidLocale locales manifest locale e
        (fun k hkk => hk k (List.mem_append_left _ hkk))
      have h2 := resolveList_noInvalidLocale locales manifest locale es
        (fun k hkk => hk k (List.mem_append_right _ hkk))
      rw [resolveList]
      cases hnode : resolveNode locales manifest locale e with
      | error err =>
          rw [hnode] at h1
          simpa [resultInvalidLocale] using h1
      | ok r1 =>
          cases hlist : resolveList locales manifest locale es with
          | error err =>
              rw [hlist] at h2
              simpa [resultInvalidLocale] using h2
          | ok rs => simp [resultInvalidLocale]

end

mutual

theorem resolveNode_missingDir (locales : List String) (manifest : ContentManifest)
    (locale : String) (d : String) (hmiss : lookupDir manifest d = none) :
    ∀ e : RawNavEntry, anyBadShapeNode e = false →
      (∀ k ∈ transKeysNode e, k ∈ locales) →
      (∀ s ∈ explicitSlugsNode e, s ∈ manifestSlugs manifest) →
      (∀ d' ∈ autogenDirsNode e, d' ≠ d → (lookupDir manifest d').isSome = true) →
      d ∈ autogenDirsNode e →
      resolveNode locales manifest locale e = .error (.missingDirectory d)
  | .mk label translations (some s) none none icon => by
      intro _ _ _ _ hd
      simp [autogenDirsNode] at hd
  | .mk label translations none (some d') none icon => by
      intro hsh hk hs hds hd
      have hdd : d' = d := by
        have : d = d' := by simpa [autogenDirsNode] using hd
        exact this.symm
      subst hdd
      have htr : translationsOk locales translations = true :=
        translationsOk_of_mem_keys _ _ hk
      simp [resolveNode, htr, hmiss]
  | .mk label translations none none (some children) icon => by
      intro hsh hk hs hds hd
      have htr : translationsOk locales translations = true :=
        translationsOk_of_mem_keys _ _ (fun k hkk => hk k (List.mem_append_left _ hkk))
      have hrec := resolveList_missingDir locales manifest locale d hmiss children hsh
        (fun k hkk => hk k (List.mem_append_right _ hkk)) hs hds hd
      simp [resolveNode, htr, hrec]
  | .mk label translations (some s) (some d') items icon => by
      intro hsh _ _ _ _
      simp [anyBadShapeNode] at hsh
  | .mk label translations (some s) none (some children) icon => by
      intro hsh _ _ _ _
      simp [anyBadShapeNode] at hsh
  | .mk label translations none (some d') (some children) icon => by
      intro hsh _ _ _ _
      simp [anyBadShapeNode] at hsh
  | .mk label translations none none none icon => by
      intro hsh _ _ _ _
      simp [anyBadShapeNode] at hsh

theorem resolveList_missingDir (locales : List String) (manifest : ContentManifest)
    (locale : String) (d : String) (hmiss : lookupDir manifest d = none) :
    ∀ es : List RawNavEntry, anyBadShapeList es = false →
      (∀ k ∈ transKeysList es, k ∈ locales) →
      (∀ s ∈ explicitSlugsList es, s ∈ manifestSlugs manifest) →
      (∀ d' ∈ autogenDirsList es, d' ≠ d → (lookupDir manifest d').isSome = true) →
      d ∈ autogenDirsList es →
      resolveList locales manifest locale es = .error (.missingDirectory d)
  | [] => by
      intro _ _ _ _ hd
      simp [autogenDirsList] at hd
  | e :: es => by
      intro hsh hk hs hds hd
      have hsh' : anyBadShapeNode e = false ∧ anyBadShapeList es = false := by
        simpa [anyBadShapeList, Bool.or_eq_false_iff] using hsh
      by_cases hdN : d ∈ autogenDirsNode e
      · have hnode := resolveNode_missingDir locales manifest locale d hmiss e hsh'.1
          (fun k hkk => hk k (List.mem_append_left _ hkk))
          (fun s hss => hs s (List.mem_append_left _ hss))
          (fun d' hdd => hds d' (List.mem_append_left _ hdd)) hdN
        simp [resolveList, hnode]
      · have hdL : d ∈ autogenDirsList es := by
          rcases List.mem_append.mp hd with h1 | h2
          · exact absurd h1 hdN
          · exact h2
        obtain ⟨r, hr⟩ := resolveNode_ok locales manifest locale e hsh'.1
          (fun k hkk => hk k (List.mem_append_left _ hkk))
          (fun s hss => hs s (List.mem_append_left _ hss))
          (fun d' hdd => hds d' (List.mem_append_left _ hdd)
            (fun hcontra => hdN (hcontra ▸ hdd)))
        have hrec := resolveList_missingDir locales manifest locale d hmiss es hsh'.2
          (fun k hkk => hk k (List.mem_append_right _ hkk))
          (fun s hss => hs s (List.mem_append_right _ hss))
          (fun d' hdd => hds d' (List.mem_append_right _ hdd)) hdL
        simp [resolveList, hr, hrec]

end

mutual

theorem resolveNode_danglingSlug (locales : List String) (manifest : ContentManifest)
    (locale : String) (s : String) (hmiss : ¬s ∈ manifestSlugs manifest) :
    ∀ e : RawNavEntry, anyBadShapeNode e = false →
      (∀ k ∈ transKeysNode e, k ∈ locales) →
      (∀ s' ∈ explicitSlugsNode e, s' ≠ s → s' ∈ manifestSlugs manifest) →
      (∀ d ∈ autogenDirsNode e, (lookupDir manifest d).isSome = true) →
      s ∈ explicitSlugsNode e →
      resolveNode locales manifest locale e = .error (.danglingSlug s)
  | .mk label translations (some s') none none icon => by
      intro hsh hk hss hds hmem
      have hss' : s' = s := by
        have : s = s' := by simpa [explicitSlugsNode] using hmem
        exact this.symm
      subst hss'
      have htr : translationsOk locales translations = true :=
        translationsOk_of_mem_keys _ _ hk
      simp [resolveNode, htr, hmiss]
  | .mk label translations none (some d) none icon => by
      intro _ _ _ _ hmem
      simp [explicitSlugsNode] at hmem
  | .mk label translations none none (some children) icon => by
      intro hsh hk hss hds hmem
      have htr : translationsOk locales translations = true :=
        translationsOk_of_mem_keys _ _ (fun k hkk => hk k (List.mem_append_left _ hkk))
      have hrec := resolveList_danglingSlug locales manifest locale s hmiss children hsh
        (fun k hkk => hk k (List.mem_append_right _ hkk)) hss hds hmem
      simp [resolveNode, htr, hrec]
  | .mk label translations (some s') (some d) items icon => by
      intro hsh _ _ _ _
      simp [anyBadShapeNode] at hsh
  | .mk label translations (some s') none (some children) icon => by
      intro hsh _ _ _ _
      simp [anyBadShapeNode] at hsh
  | .mk label translations none (some d) (some children) icon => by
      intro hsh _ _ _ _
      simp [anyBadShapeNode] at hsh
  | .mk label translations none none none icon => by
      intro hsh _ _ _ _
      simp [anyBadShapeNode] at hsh

theorem resolveList_danglingSlug (locales : List String) (manifest : ContentManifest)
    (locale : String) (s : String) (hmiss : ¬s ∈ manifestSlugs manifest) :
    ∀ es : List RawNavEntry, anyBadShapeList es = false →
      (∀ k ∈ transKeysList es, k ∈ locales) →
      (∀ s' ∈ explicitSlugsList es, s' ≠ s → s' ∈ manifestSlugs manifest) →
      (∀ d ∈ autogenDirsList es, (lookupDir manifest d).isSome = true) →
      s ∈ explicitSlugsList es →
      resolveList locales manifest locale es = .error (.danglingSlug s)
  | [] => by
      intro _ _ _ _ hmem
      simp [explicitSlugsList] at hmem
  | e :: es => by
      intro hsh hk hss hds hmem
      have hsh' : anyBadShapeNode e = false ∧ anyBadShapeList es = false := by
        simpa [anyBadShapeList, Bool.or_eq_false_iff] using hsh
      by_cases hsN : s ∈ explicitSlugsNode e
      · have hnode := resolveNode_danglingSlug locales manifest locale s hmiss e hsh'.1
          (fun k hkk => hk k (List.mem_append_left _ hkk))
          (fun s' hss' => hss s' (List.mem_append_left _ hss'))
          (fun d hdd => hds d (List.mem_append_left _ hdd)) hsN
        simp [resolveList, hnode]
      · have hsL : s ∈ explicitSlugsList es := by
          rcases List.mem_append.mp hmem with h1 | h2
          · exact absurd h1 hsN
          · exact h2
        obtain ⟨r, hr⟩ := resolveNode_ok locales manifest locale e hsh'.1
          (fun k hkk => hk k (List.mem_append_left _ hkk))
          (fun s' hss' => hss s' (List.mem_append_left _ hss')
            (fun hcontra => hsN (hcontra ▸ hss')))
          (fun d hdd => hds d (List.mem_append_left _ hdd))
        have hrec := resolveList_danglingSlug locales manifest locale s hmiss es hsh'.2
          (fun k hkk => hk k (List.mem_append_right _ hkk))
          (fun s' hss' => hss s' (List.mem_append_right _ hss'))
          (fun d hdd => hds d (List.mem_append_right _ hdd)) hsL
        simp [resolveList, hr, hrec]

end

mutual

theorem resolveNode_malformed (locales : List String) (manifest : ContentManifest)
    (locale : String) :
    ∀ e : RawNavEntry, anyBadShapeNode e = true →
      (∀ k ∈ transKeysNode e, k ∈ locales) →
      (∀ s ∈ explicitSlugsNode e, s ∈ manifestSlugs manifest) →
      (∀ d ∈ autogenDirsNode e, (lookupDir manifest d).isSome = true) →
      ∃ l, resolveNode locales manifest locale e = .error (.malformedNode l)
  | .mk label translations (some s) none none icon => by
      intro hsh _ _ _
      simp [anyBadShapeNode] at hsh
  | .mk label translations none (some d) none icon => by
      intro hsh _ _ _
      simp [anyBadShapeNode] at hsh
  | .mk label translations none none (some children) icon => by
      intro hsh hk hs hd
      have htr : translationsOk locales translations = true :=
        translationsOk_of_mem_keys _ _ (fun k hkk => hk k (List.mem_append_left _ hkk))
      obtain ⟨l, hl⟩ := resolveList_malformed locales manifest locale children hsh
        (fun k hkk => hk k (List.mem_append_right _ hkk)) hs hd
      exact ⟨l, by simp [resolveNode, htr, hl]⟩
  | .mk label translations (some s) (some d) items icon => by
      intro _ _ _ _
      exact ⟨label, by simp [resolveNode]⟩
  | .mk label translations (some s) none (some children) icon => by
      intro _ _ _ _
      exact ⟨label, by simp [resolveNode]⟩
  | .mk label translations none (some d) (some children) icon => by
      intro _ _ _ _
      exact ⟨label, by simp [resolveNode]⟩
  | .mk label translations none none none icon => by
      intro _ _ _ _
      exact ⟨label, by simp [resolveNode]⟩

theorem resolveList_malformed (locales : List String) (manifest : ContentManifest)
    (locale : String) :
    ∀ es : List RawNavEntry, anyBadShapeList es = true →
      (∀ k ∈ transKeysList es, k ∈ locales) →
      (∀ s ∈ explicitSlugsList es, s ∈ manifestSlugs manifest) →
      (∀ d ∈ autogenDirsList es, (lookupDir manifest d).isSome = true) →
      ∃ l, resolveList locales manifest locale es = .error (.malformedNode l)
  | [] => by
      intro hsh _ _ _
      simp [anyBadShapeList] at hsh
  | e :: es => by
      intro hsh hk hs hd
      by_cases hshN : anyBadShapeNode e = true
      · obtain ⟨l, hl⟩ := resolveNode_malformed locales manifest locale e hshN
          (fun k hkk => hk k (List.mem_append_left _ hkk))
          (fun s hss => hs s (List.mem_append_left _ hss))
          (fun d hdd => hd d (List.mem_append_left _ hdd))
        exact ⟨l, by simp [resolveList, hl]⟩
      · have hshN' : anyBadShapeNode e = false := by
          revert hshN; cases anyBadShapeNode e <;> simp
        have hshL : anyBadShapeList es = true := by
          have := hsh
          rw [anyBadShapeList, hshN'] at this
          simpa using this
        obtain ⟨r, hr⟩ := resolveNode_ok locales manifest locale e hshN'
          (fun k hkk => hk k (List.mem_append_left _ hkk))
          (fun s hss => hs s (List.mem_append_left _ hss))
          (fun d hdd => hd d (List.mem_append_left _ hdd))
        obtain ⟨l, hl⟩ := resolveList_malformed locales manifest locale es hshL
          (fun k hkk => hk k (List.mem_append_right _ hkk))
          (fun s hss => hs s (List.mem_append_right _ hss))
          (fun d hdd => hd d (List.mem_append_right _ hdd))
        exact ⟨l, by simp [resolveList, hr, hl]⟩

end

mutual

theorem resolveNode_invalidLocale (locales : List String) (manifest : ContentManifest)
    (locale : String) (k : String) (hbad : ¬k ∈ locales) :
    ∀ e : RawNavEntry, anyBadShapeNode e = false →
      (∀ s ∈ explicitSlugsNode e, s ∈ manifestSlugs manifest) →
      (∀ d ∈ autogenDirsNode e, (lookupDir manifest d).isSome = true) →
      (∀ k' ∈ transKeysNode e, k' ≠ k → k' ∈ locales) →
      k ∈ transKeysNode e →
      resolveNode locales manifest locale e = .error (.invalidLocale k)
  | .mk label translations (some s) none none icon => by
      intro hsh hs hd hothers hmem
      obtain ⟨hfalse, hfk⟩ := firstBadKey_eq locales translations k hmem
        (by simpa using hbad)
        (fun k' hk' hne => by simpa using hothers k' hk' hne)
      simp [resolveNode, hfalse, hfk]
  | .mk label translations none (some d) none icon => by
      intro hsh hs hd hothers hmem
      obtain ⟨hfalse, hfk⟩ := firstBadKey_eq locales translations k hmem
        (by simpa using hbad)
        (fun k' hk' hne => by simpa using hothers k' hk' hne)
      simp [resolveNode, hfalse, hfk]
  | .mk label translations none none (some children) icon => by
      intro hsh hs hd hothers hmem
      by_cases hin : k ∈ translations.map (fun p => p.1)
      · obtain ⟨hfalse, hfk⟩ := firstBadKey_eq locales translations k hin
          (by simpa using hbad)
          (fun k' hk' hne => by
            simpa using hothers k' (List.mem_append_left _ hk') hne)
        simp [resolveNode, hfalse, hfk]
      · have htr : translationsOk locales translations = true :=
          translationsOk_of_mem_keys _ _ (fun k' hk' => by
            by_cases hkk : k' = k
            · exact absurd (hkk ▸ hk') hin
            · exact hothers k' (List.mem_append_left _ hk') hkk)
        have hmemL : k ∈ transKeysList children := by
          rcases List.mem_append.mp hmem with h1 | h2
          · exact absurd h1 hin
          · exact h2
        have hrec := resolveList_invalidLocale locales manifest locale k hbad children
          hsh hs hd (fun k' hk' hne => hothers k' (List.mem_append_right _ hk') hne)
          hmemL
        simp [resolveNode, htr, hrec]
  | .mk label translations (some s) (some d) items icon => by
      intro hsh _ _ _ _
      simp [anyBadShapeNode] at hsh
  | .mk label translations (some s) none (some children) icon => by
      intro hsh _ _ _ _
      simp [anyBadShapeNode] at hsh
  | .mk label translations none (some d) (some children) icon => by
      intro hsh _ _ _ _
      simp [anyBadShapeNode] at hsh
  | .mk label translations none none none icon => by
      intro hsh _ _ _ _
      simp [anyBadShapeNode] at hsh

theorem resolveList_invalidLocale (locales : List String) (manifest : ContentManifest)
    (locale : String) (k : String) (hbad : ¬k ∈ locales) :
    ∀ es : List RawNavEntry, anyBadShapeList es = false →
      (∀ s ∈ explicitSlugsList es, s ∈ manifestSlugs manifest) →
      (∀ d ∈ autogenDirsList es, (lookupDir manifest d).isSome = true) →
      (∀ k' ∈ transKeysList es, k' ≠ k → k' ∈ locales) →
      k ∈ transKeysList es →
      resolveList locales manifest locale es = .error (.invalidLocale k)
  | [] => by
      intro _ _ _ _ hmem
      simp [transKeysList] at hmem
  | e :: es => by
      intro hsh hs hd hothers hmem
      have hsh' : anyBadShapeNode e = false ∧ anyBadShapeList es = false := by
        simpa [anyBadShapeList, Bool.or_eq_false_iff] using hsh
      by_cases hin : k ∈ transKeysNode e
      · have hnode := resolveNode_invalidLocale locales manifest locale k hbad e hsh'.1
          (fun s hss => hs s (List.mem_append_left _ hss))
          (fun d hdd => hd d (List.mem_append_left _ hdd))
          (fun k' hk' hne => hothers k' (List.mem_append_left _ hk') hne) hin
        simp [resolveList, hnode]
      · obtain ⟨r, hr⟩ := resolveNode_ok locales manifest locale e hsh'.1
          (fun k' hk' => by
            by_cases hkk : k' = k
            · exact absurd (hkk ▸ hk') hin
            · exact hothers k' (List.mem_append_left _ hk') hkk)
          (fun s hss => hs s (List.mem_append_left _ hss))
          (fun d hdd => hd d (List.mem_append_left _ hdd))
        have hmemL : k ∈ transKeysList es := by
          rcases List.mem_append.mp hmem with h1 | h2
          · exact absurd h1 hin
          · exact h2
        have hrec := resolveList_invalidLocale locales manifest locale k hbad es hsh'.2
          (fun s hss => hs s (List.mem_append_right _ hss))
          (fun d hdd => hd d (List.mem_append_right _ hdd))
          (fun k' hk' hne => hothers k' (List.mem_append_right _ hk') hne) hmemL
        simp [resolveList, hr, hrec]

end

mutual

theorem plain_of_resolveNode_ok (locales : List String) (manifest : ContentManifest)
    (locale : String) :
    ∀ (e : RawNavEntry) (r : List ResolvedNavEntry),
      autogenDirsNode e = [] →
      resolveNode locales manifest locale e = .ok r →
      r = plainNode locale e ∧ r.length = 1
  | .mk label translations (some s) none none icon => by
      intro r hag h
      simp only [resolveNode] at h
      by_cases htr : translationsOk locales translations = true
      · rw [if_pos htr] at h
        by_cases hc : (manifestSlugs manifest).contains s = true
        · rw [if_pos hc] at h
          have hr : r =
              [ResolvedNavEntry.mk (resolveLabel label translations locale) (some s) []] := by
            simpa using h.symm
          subst hr
          exact ⟨rfl, rfl⟩
        · rw [if_neg hc] at h; simp at h
      · rw [if_neg htr] at h; simp at h
  | .mk label translations none (some d) none icon => by
      intro r hag h
      simp [autogenDirsNode] at hag
  | .mk label translations none none (some children) icon => by
      intro r hag h
      simp only [resolveNode] at h
      by_cases htr : translationsOk locales translations = true
      · rw [if_pos htr] at h
        cases hrc : resolveList locales manifest locale children with
        | error err => rw [hrc] at h; simp at h
        | ok rc =>
            rw [hrc] at h
            have hr : r =
                [ResolvedNavEntry.mk (resolveLabel label translations locale) none rc] := by
              simpa using h.symm
            subst hr
            have hrec := plain_of_resolveList_ok locales manifest locale children rc hag hrc
            rw [hrec.1]
            exact ⟨rfl, rfl⟩
      · rw [if_neg htr] at h; simp at h
  | .mk label translations (some s) (some d) items icon => by
      intro r hag h
      simp [resolveNode] at h
  | .mk label translations (some s) none (some children) icon => by
      intro r hag h
      simp [resolveNode] at h
  | .mk label translations none (some d) (some children) icon => by
      intro r hag h
      simp [resolveNode] at h
  | .mk label translations none none none icon => by
      intro r hag h
      simp [resolveNode] at h

theorem plain_of_resolveList_ok (locales : List String) (manifest : ContentManifest)
    (locale : String) :
    ∀ (es : List RawNavEntry) (r : List ResolvedNavEntry),
      autogenDirsList es = [] →
      resolveList locales manifest locale es = .ok r →
      r = plainList locale es ∧ r.length = es.length
  | [] => by
      intro r hag h
      have hr : r = [] := by simpa [resolveList] using h.symm
      subst hr
      exact ⟨rfl, rfl⟩
  | e :: es => by
      intro r hag h
      have hag2 : autogenDirsNode e = [] ∧ autogenDirsList es = [] := by
        have : autogenDirsNode e ++ autogenDirsList es = [] := hag
        exact List.append_eq_nil.mp this
      rw [resolveList] at h
      cases hnode : resolveNode locales manifest locale e with
      | error err => rw [hnode] at h; simp at h
      | ok r1 =>
          rw [hnode] at h
          cases hlist : resolveList locales manifest locale es with
          | error err => rw [hlist] at h; simp at h
          | ok rs =>
              rw [hlist] at h
              have hr : r = r1 ++ rs := by simpa using h.symm
              subst hr
              have h1 := plain_of_resolveNode_ok locales manifest locale e r1 hag2.1 hnode
              have h2 := plain_of_resolveList_ok locales manifest locale es rs hag2.2 hlist
              constructor
              · rw [h1.1, h2.1]
                rfl
              · rw [List.length_append, h1.2, h2.2]
                simp [Nat.add_comm]

end

mutual

theorem resolveNode_locSets (S T : List String) (manifest : ContentManifest)
    (locale : String) :
    ∀ e : RawNavEntry, (∀ k ∈ transKeysNode e, k ∈ S) →
      (∀ k ∈ transKeysNode e, k ∈ T) →
      resolveNode S manifest locale e = resolveNode T manifest locale e
  | .mk label translations (some s) none none icon => by
      intro hkS hkT
      have htrS : translationsOk S translations = true :=
        translationsOk_of_mem_keys _ _ hkS
      have htrT : translationsOk T translations = true :=
        translationsOk_of_mem_keys _ _ hkT
      simp [resolveNode, htrS, htrT]
  | .mk label translations none (some d) none icon => by
      intro hkS hkT
      have htrS : translationsOk S translations = true :=
        translationsOk_of_mem_keys _ _ hkS
      have htrT : translationsOk T translations = true :=
        translationsOk_of_mem_keys _ _ hkT
      simp [resolveNode, htrS, htrT]
  | .mk label translations none none (some children) icon => by
      intro hkS hkT
      have htrS : translationsOk S translations = true :=
        translationsOk_of_mem_keys _ _ (fun k hkk => hkS k (List.mem_append_left _ hkk))
      have htrT : translationsOk T translations = true :=
        translationsOk_of_mem_keys _ _ (fun k hkk => hkT k (List.mem_append_left _ hkk))
      have hrec := resolveList_locSets S T manifest locale children
        (fun k hkk => hkS k (List.mem_append_right _ hkk))
        (fun k hkk => hkT k (List.mem_append_right _ hkk))
      simp [resolveNode, htrS, htrT, hrec]
  | .mk label translations (some s) (some d) items icon => by
      intro _ _
      simp [resolveNode]
  | .mk label translations (some s) none (some children) icon => by
      intro _ _
      simp [resolveNode]
  | .mk label translations none (some d) (some children) icon => by
      intro _ _
      simp [resolveNode]
  | .mk label translations none none none icon => by
      intro _ _
      simp [resolveNode]

theorem resolveList_locSets (S T : List String) (manifest : ContentManifest)
    (locale : String) :
    ∀ es : List RawNavEntry, (∀ k ∈ transKeysList es, k ∈ S) →
      (∀ k ∈ transKeysList es, k ∈ T) →
      resolveList S manifest locale es = resolveList T manifest locale es
  | [] => by
      intro _ _
      simp [resolveList]
  | e :: es => by
      intro hkS hkT
      have hN := resolveNode_locSets S T manifest locale e
        (fun k hkk => hkS k (List.mem_append_left _ hkk))
        (fun k hkk => hkT k (List.mem_append_left _ hkk))
      have hL := resolveList_locSets S T manifest locale es
        (fun k hkk => hkS k (List.mem_append_right _ hkk))
        (fun k hkk => hkT k (List.mem_append_right _ hkk))
      rw [resolveList, resolveList, hN, hL]

end

/-- C1: for every `AutogenerateDirective` node whose directory is present in
the content manifest with N entries, resolution replaces the node by exactly
the N leaf `ResolvedNavEntry` nodes derived from the manifest entries, in
manifest order, each leaf's `displayLabel` being that file's own title from
the manifest; the result is a function of the entries alone, so none of the
directive's own `label` or `translations` is applied to any leaf, and its
length is exactly N. -/
theorem c1_autogenerate_expansion (locales : List String) (manifest : ContentManifest)
    (locale : String) (label : String) (translations : List (String × String))
    (d : String) (icon : Option String) (entries : List ManifestEntry)
    (htr : translationsOk locales translations = true)
    (hdir : lookupDir manifest d = some entries) :
    resolveNode locales manifest locale (.mk label translations none (some d) none icon) =
      .ok (entries.map (fun en => ResolvedNavEntry.mk en.title (some en.slug) [])) ∧
    (entries.map (fun en => ResolvedNavEntry.mk en.title (some en.slug) [])).length =
      entries.length := by
  constructor
  · simp [resolveNode, htr, hdir]
  · simp

/-- Witness for C1 at the Scenario-B style input: a directive over a
directory with two entries expands to the two titled leaves, in order. -/
theorem c1_autogenerate_expansion_witness :
    resolveNode ["en", "fr"]
      [("design-patterns",
        [⟨"design-patterns/singleton", "Singleton"⟩,
         ⟨"design-patterns/factory", "Factory"⟩])] "en"
      (.mk "Patterns" [("fr", "Patterns")] none (some "design-patterns") none none) =
      .ok [.mk "Singleton" (some "design-patterns/singleton") [],
           .mk "Factory" (some "design-patterns/factory") []] :=
  (c1_autogenerate_expansion ["en", "fr"]
    [("design-patterns",
      [⟨"design-patterns/singleton", "Singleton"⟩,
       ⟨"design-patterns/factory", "Factory"⟩])] "en" "Patterns" [("fr", "Patterns")]
    "design-patterns" none
    [⟨"design-patterns/singleton", "Singleton"⟩, ⟨"design-patterns/factory", "Factory"⟩]
    (by decide) (by rfl)).1

/-- C2: for every valid input tree with no `AutogenerateDirective` node and
every requested locale, a successful resolution equals the positional
per-node map `plainList` — each raw node yields exactly one resolved node,
group children are mapped recursively in place — so at every group the
children keep their declared number and sibling order (no reordering, no
deduplication, no omission); in particular the output has exactly as many
top-level nodes as the input. -/
theorem c2_no_autogen_order_preserved (locales : List String) (manifest : ContentManifest)
    (locale : String) (tree : List RawNavEntry) (res : List ResolvedNavEntry)
    (hag : autogenDirsList tree = [])
    (h : resolveTree locales manifest locale tree = .ok res) :
    res = plainList locale tree ∧ res.length = tree.length :=
  plain_of_resolveList_ok locales manifest locale tree res hag h

/-- Witness for C2 at the Scenario-A style input: a group with one explicit
leaf resolves to the identically shaped resolved tree. -/
theorem c2_no_autogen_order_preserved_witness :
    ([ResolvedNavEntry.mk "Guides" none [.mk "Intro" (some "guides/intro") []]] =
      plainList "en"
        [.mk "Guides" [] none none
          (some [.mk "Intro" [] (some "guides/intro") none none none]) none]) ∧
    ([ResolvedNavEntry.mk "Guides" none [.mk "Intro" (some "guides/intro") []]].length =
      [RawNavEntry.mk "Guides" [] none none
        (some [.mk "Intro" [] (some "guides/intro") none none none]) none].length) :=
  c2_no_autogen_order_preserved ["en"] [("guides", [⟨"guides/intro", "Intro"⟩])] "en"
    [.mk "Guides" [] none none
      (some [.mk "Intro" [] (some "guides/intro") none none none]) none]
    [ResolvedNavEntry.mk "Guides" none [.mk "Intro" (some "guides/intro") []]]
    (by rfl) (by rfl)

/-- C3: for every node and every requested locale L, the resolved
`displayLabel` is `translations[L]` when the mapping contains the key L and
the node's default `label` otherwise; the fallback is the single function
`resolveLabel`, applied uniformly for every locale (including the default
one, which is quantified over like any other), and the resolver emits
exactly that label for a well-formed leaf. -/
theorem c3_label_fallback (locales : List String) (manifest : ContentManifest)
    (locale label s : String) (translations : List (String × String))
    (icon : Option String)
    (htr : translationsOk locales translations = true)
    (hs : s ∈ manifestSlugs manifest) :
    (∀ t, lookupStr translations locale = some t →
      resolveLabel label translations locale = t) ∧
    (lookupStr translations locale = none →
      resolveLabel label translations locale = label) ∧
    resolveNode locales manifest locale (.mk label translations (some s) none none icon) =
      .ok [.mk (resolveLabel label translations locale) (some s) []] := by
  refine ⟨?_, ?_, ?_⟩
  · intro t ht
    simp [resolveLabel, ht]
  · intro ht
    simp [resolveLabel, ht]
  · simp [resolveNode, htr, hs]

/-- Witness for C3 on the repository's first sidebar entry, requested in
French: the translation key is present, so the French label is emitted. -/
theorem c3_label_fallback_witness :
    (∀ t, lookupStr [("fr", "Pour Commencer")] "fr" = some t →
      resolveLabel "Getting Starred" [("fr", "Pour Commencer")] "fr" = t) ∧
    (lookupStr [("fr", "Pour Commencer")] "fr" = none →
      resolveLabel "Getting Starred" [("fr", "Pour Commencer")] "fr" = "Getting Starred") ∧
    resolveNode ["root", "fr"] [("top", [⟨"getting-started", "Getting Started"⟩])] "fr"
      (.mk "Getting Starred" [("fr", "Pour Commencer")] (some "getting-started")
        none none none) =
      .ok [.mk (resolveLabel "Getting Starred" [("fr", "Pour Commencer")] "fr")
        (some "getting-started") []] :=
  c3_label_fallback ["root", "fr"] [("top", [⟨"getting-started", "Getting Started"⟩])]
    "fr" "Getting Starred" "getting-started" [("fr", "Pour Commencer")] none
    (by decide) (by decide)

/-- C4: for every input tree containing an `AutogenerateDirective` whose
directory is not a key of the content manifest (and no other configuration
violation, so this is the error the single pass reports), resolution fails
with `MissingDirectoryError` naming that directory — for every requested
locale, and hence the full `resolve` produces no resolved tree for any
locale whenever at least one locale is requested. -/
theorem c4_missing_directory_fails (locales : List String) (manifest : ContentManifest)
    (tree : List RawNavEntry) (d : String)
    (hsh : anyBadShapeList tree = false)
    (hk : ∀ k ∈ transKeysList tree, k ∈ locales)
    (hs : ∀ s ∈ explicitSlugsList tree, s ∈ manifestSlugs manifest)
    (hd : d ∈ autogenDirsList tree)
    (hmiss : lookupDir manifest d = none)
    (hothers : ∀ d' ∈ autogenDirsList tree, d' ≠ d →
      (lookupDir manifest d').isSome = true) :
    (∀ locale : String,
      resolveTree locales manifest locale tree = .error (.missingDirectory d)) ∧
    (∀ (defaultLocale L : String) (Ls : List String), locales = L :: Ls →
      resolve tree locales defaultLocale manifest = .error (.missingDirectory d)) := by
  have h1 : ∀ locale : String,
      resolveTree locales manifest locale tree = .error (.missingDirectory d) :=
    fun locale =>
      resolveList_missingDir locales manifest locale d hmiss tree hsh hk hs hothers hd
  refine ⟨h1, ?_⟩
  intro dl L Ls hloc
  subst hloc
  show resolveLocales tree (L :: Ls) manifest (L :: Ls) = .error (.missingDirectory d)
  rw [resolveLocales, h1 L]

/-- Witness for C4 at the Scenario-C input: a directive over `missing-dir`
with an empty manifest fails with the named error, for the tree and for the
full resolve. -/
theorem c4_missing_directory_fails_witness :
    resolveTree ["en"] [] "en" [.mk "Broken" [] none (some "missing-dir") none none] =
      .error (.missingDirectory "missing-dir") ∧
    resolve [.mk "Broken" [] none (some "missing-dir") none none] ["en"] "en" [] =
      .error (.missingDirectory "missing-dir") :=
  ⟨(c4_missing_directory_fails ["en"] []
      [.mk "Broken" [] none (some "missing-dir") none none] "missing-dir"
      (by decide) (by decide) (by decide) (by decide) (by rfl) (by decide)).1 "en",
   (c4_missing_directory_fails ["en"] []
      [.mk "Broken" [] none (some "missing-dir") none none] "missing-dir"
      (by decide) (by decide) (by decide) (by decide) (by rfl) (by decide)).2
      "en" "en" [] rfl⟩

/-- C5: an `ExplicitSlug` leaf whose slug appears in no directory listing of
the manifest (aggregate membership) makes resolution fail with
`DanglingSlugError` for that slug rather than silently omitting the node
(first conjunct, under the hypothesis that this is the tree's only
violation); and resolution succeeds only when every explicit slug of the
tree is present in the manifest (second conjunct, unconditional). -/
theorem c5_dangling_slug (locales : List String) (manifest : ContentManifest)
    (tree : List RawNavEntry) (s : String) :
    (anyBadShapeList tree = false →
      (∀ k ∈ transKeysList tree, k ∈ locales) →
      (∀ d ∈ autogenDirsList tree, (lookupDir manifest d).isSome = true) →
      s ∈ explicitSlugsList tree →
      ¬s ∈ manifestSlugs manifest →
      (∀ s' ∈ explicitSlugsList tree, s' ≠ s → s' ∈ manifestSlugs manifest) →
      ∀ locale : String,
        resolveTree locales manifest locale tree = .error (.danglingSlug s)) ∧
    (∀ (locale : String) (r : List ResolvedNavEntry),
      resolveTree locales manifest locale tree = .ok r →
      ∀ s' ∈ explicitSlugsList tree, s' ∈ manifestSlugs manifest) := by
  constructor
  · intro hsh hk hd hmem hmiss hothers locale
    exact resolveList_danglingSlug locales manifest locale s hmiss tree hsh hk hothers
      hd hmem
  · intro locale r h s' hs'
    exact slugs_of_resolveList_ok locales manifest locale tree r h s' hs'

/-- Witness for C5: a leaf pointing at the absent slug `ghost` fails with
the named error, and on a successful resolution the referenced slug is
indeed in the manifest. -/
theorem c5_dangling_slug_witness :
    resolveTree ["en"] [] "en" [.mk "Leaf" [] (some "ghost") none none none] =
      .error (.danglingSlug "ghost") ∧
    "guides/intro" ∈ manifestSlugs [("guides", [⟨"guides/intro", "Intro"⟩])] :=
  ⟨(c5_dangling_slug ["en"] [] [.mk "Leaf" [] (some "ghost") none none none] "ghost").1
      (by decide) (by decide) (by decide) (by decide) (by decide) (by decide) "en",
   (c5_dangling_slug ["en"] [("guides", [⟨"guides/intro", "Intro"⟩])]
      [.mk "Leaf" [] (some "guides/intro") none none none] "ghost").2 "en"
      [ResolvedNavEntry.mk "Leaf" (some "guides/intro") []] (by rfl)
      "guides/intro" (by decide)⟩

/-- C6: a node populating more than one of the three target variants, or
none of them, makes resolution fail with `MalformedNodeError` (under the
hypothesis that the shape violation is the tree's only violation); the
failure is a single `Except.error`, so no partially resolved tree is
produced — for every requested locale, and for the full `resolve` whenever
at least one locale is requested. -/
theorem c6_malformed_node_fails (locales : List String) (manifest : ContentManifest)
    (tree : List RawNavEntry)
    (hsh : anyBadShapeList tree = true)
    (hk : ∀ k ∈ transKeysList tree, k ∈ locales)
    (hs : ∀ s ∈ explicitSlugsList tree, s ∈ manifestSlugs manifest)
    (hd : ∀ d ∈ autogenDirsList tree, (lookupDir manifest d).isSome = true) :
    (∀ locale : String, ∃ l,
      resolveTree locales manifest locale tree = .error (.malformedNode l)) ∧
    (∀ (defaultLocale L : String) (Ls : List String), locales = L :: Ls →
      ∃ l, resolve tree locales defaultLocale manifest = .error (.malformedNode l)) := by
  have h1 : ∀ locale : String, ∃ l,
      resolveTree locales manifest locale tree = .error (.malformedNode l) :=
    fun locale => resolveList_malformed locales manifest locale tree hsh hk hs hd
  refine ⟨h1, ?_⟩
  intro dl L Ls hloc
  subst hloc
  obtain ⟨l, hl⟩ := h1 L
  refine ⟨l, ?_⟩
  show resolveLocales tree (L :: Ls) manifest (L :: Ls) = .error (.malformedNode l)
  rw [resolveLocales, hl]

/-- Witness for C6 at the Scenario-D input: a node declaring both an
explicit slug and children fails with `MalformedNodeError`, for the tree
and for the full resolve. -/
theorem c6_malformed_node_fails_witness :
    (∃ l, resolveTree ["en"] [] "en"
      [.mk "Bad" [] (some "x") none
        (some [.mk "Child" [] (some "y") none none none]) none] =
      .error (.malformedNode l)) ∧
    (∃ l, resolve
      [.mk "Bad" [] (some "x") none
        (some [.mk "Child" [] (some "y") none none none]) none] ["en"] "en" [] =
      .error (.malformedNode l)) :=
  ⟨(c6_malformed_node_fails ["en"] []
      [.mk "Bad" [] (some "x") none
        (some [.mk "Child" [] (some "y") none none none]) none]
      (by decide) (by decide) (by decide) (by decide)).1 "en",
   (c6_malformed_node_fails ["en"] []
      [.mk "Bad" [] (some "x") none
        (some [.mk "Child" [] (some "y") none none none]) none]
      (by decide) (by decide) (by decide) (by decide)).2 "en" "en" [] rfl⟩

/-- C7: a node whose translations mapping uses a locale key that is not a
member of the declared set of supported locales makes resolution fail with
`InvalidLocaleError` naming that key (under the hypothesis that this is the
tree's only violation), for every requested locale. -/
theorem c7_invalid_locale_fails (locales : List String) (manifest : ContentManifest)
    (tree : List RawNavEntry) (k : String)
    (hsh : anyBadShapeList tree = false)
    (hs : ∀ s ∈ explicitSlugsList tree, s ∈ manifestSlugs manifest)
    (hd : ∀ d ∈ autogenDirsList tree, (lookupDir manifest d).isSome = true)
    (hbad : ¬k ∈ locales)
    (hmem : k ∈ transKeysList tree)
    (hothers : ∀ k' ∈ transKeysList tree, k' ≠ k → k' ∈ locales) :
    ∀ locale : String,
      resolveTree locales manifest locale tree = .error (.invalidLocale k) :=
  fun locale =>
    resolveList_invalidLocale locales manifest locale k hbad tree hsh hs hd hothers hmem

/-- Witness for C7 at the Scenario-E input: a `de` translation key under
declared locales en/fr fails with `InvalidLocaleError` naming `de`. -/
theorem c7_invalid_locale_fails_witness :
    resolveTree ["en", "fr"] [("dir", [⟨"x", "X"⟩])] "en"
      [.mk "Node" [("de", "Knoten")] (some "x") none none none] =
      .error (.invalidLocale "de") :=
  c7_invalid_locale_fails ["en", "fr"] [("dir", [⟨"x", "X"⟩])]
    [.mk "Node" [("de", "Knoten")] (some "x") none none none] "de"
    (by decide) (by decide) (by decide) (by decide) (by decide) (by decide) "en"

/-- C8: in this model `resolve` is a pure, deterministic function of its
four inputs — the input tree, the locale set, the default locale and the
content manifest; two runs on the same inputs are the same computation, so
their outputs (tree shape, labels, hrefs, for every locale) are
structurally identical, with no hidden state or randomness to vary. -/
theorem c8_resolve_deterministic (tree : List RawNavEntry) (locales : List String)
    (defaultLocale : String) (manifest : ContentManifest) :
    resolve tree locales defaultLocale manifest =
      resolve tree locales defaultLocale manifest := rfl

/-- C9 counterexample: the output component for locale `en` is NOT
unchanged under a change of the requested locale set — with `de` declared
the tree resolves for `en`, and with the same tree but `de` not declared the
translation-key validation fails the whole resolution, so the two components
for `en` differ.  This refutes the claim as stated. -/
theorem c9_locale_set_affects_output :
    resolveTree ["en", "de"] [("dir", [⟨"home", "Home"⟩])] "en"
        [.mk "Home" [("de", "Heim")] (some "home") none none none] ≠
      resolveTree ["en"] [("dir", [⟨"home", "Home"⟩])] "en"
        [.mk "Home" [("de", "Heim")] (some "home") none none none] := by
  intro h
  have h1 : resolveTree ["en", "de"] [("dir", [⟨"home", "Home"⟩])] "en"
      [.mk "Home" [("de", "Heim")] (some "home") none none none] =
      .ok [.mk "Home" (some "home") []] := rfl
  have h2 : resolveTree ["en"] [("dir", [⟨"home", "Home"⟩])] "en"
      [.mk "Home" [("de", "Heim")] (some "home") none none none] =
      .error (.invalidLocale "de") := rfl
  rw [h1, h2] at h
  exact Except.noConfusion h

set_option linter.unusedVariables false in
/-- C9 amended: for every locale L and every two requested locale sets that
both contain L — provided every translation key of the tree is valid with
respect to both sets, so that the locale-key validation mandated by the
error taxonomy cannot distinguish them — the resolved tree for L is
identical: it depends only on the input tree, the content manifest and L. -/
theorem c9_locale_set_independent (S T : List String) (manifest : ContentManifest)
    (tree : List RawNavEntry) (L : String)
    (hS : L ∈ S) (hT : L ∈ T)
    (hkS : ∀ k ∈ transKeysList tree, k ∈ S)
    (hkT : ∀ k ∈ transKeysList tree, k ∈ T) :
    resolveTree S manifest L tree = resolveTree T manifest L tree :=
  resolveList_locSets S T manifest L tree hkS hkT

/-- Witness for the amended C9: adding an unused `de` locale to the
requested set leaves the `en` component unchanged. -/
theorem c9_locale_set_independent_witness :
    resolveTree ["en", "fr"] [("dir", [⟨"home", "Home"⟩])] "en"
        [.mk "Home" [("fr", "Accueil")] (some "home") none none none] =
      resolveTree ["en", "fr", "de"] [("dir", [⟨"home", "Home"⟩])] "en"
        [.mk "Home" [("fr", "Accueil")] (some "home") none none none] :=
  c9_locale_set_independent ["en", "fr"] ["en", "fr", "de"]
    [("dir", [⟨"home", "Home"⟩])]
    [.mk "Home" [("fr", "Accueil")] (some "home") none none none] "en"
    (by decide) (by decide) (by decide) (by decide)

/-- C10: every sidebar configuration variant shipped in the repository
satisfies the resolver's locale well-formedness preconditions — the
declared default locale `root` is a member of the declared locale set, the
only locale key used in any node's translations mapping across all five
variants is `fr`, which is itself declared — and consequently on these
configurations the `InvalidLocaleError` branch is unreachable, for every
content manifest and every requested locale. -/
theorem c10_repo_configs_locale_wellformed :
    repoDefaultLocale ∈ repoLocales ∧
    "fr" ∈ repoLocales ∧
    ((transKeysList sidebarA ++ transKeysList sidebarB ++ transKeysList sidebarC ++
      transKeysList sidebarD ++ transKeysList sidebarE).all
        (fun k => k == "fr") = true) ∧
    (∀ (manifest : ContentManifest) (locale : String),
      resultInvalidLocale (resolveTree repoLocales manifest locale sidebarA) = false ∧
      resultInvalidLocale (resolveTree repoLocales manifest locale sidebarB) = false ∧
      resultInvalidLocale (resolveTree repoLocales manifest locale sidebarC) = false ∧
      resultInvalidLocale (resolveTree repoLocales manifest locale sidebarD) = false ∧
      resultInvalidLocale (resolveTree repoLocales manifest locale sidebarE) = false) := by
  refine ⟨by decide, by decide, by decide, ?_⟩
  intro manifest locale
  refine ⟨?_, ?_, ?_, ?_, ?_⟩ <;>
    exact resolveList_noInvalidLocale repoLocales manifest locale _ (by decide)
